import Mathlib

/-!
# TechFlow service worker (`sw.js`): caching strategies and cache lifecycle

A shallow embedding of the `install`, `activate` and `fetch` listeners of `sw.js`.

Host objects are modelled as follows.

* A `Response` is a record of status, status text, headers and body.
* A `Request` carries `method`, `url`, `destination` and `pathname`, the latter being
  `new URL(request.url).pathname` as computed by the host URL parser.
* `CacheStorage` (the global `caches`) is the list of named caches in creation order; a
  cache is a list of entries keyed by request URL.
* A promise is represented by the way it settles (`Settled`).  The environment `Env` fixes
  how `fetch` settles for each URL, whether the cache backend is reachable (when it is not,
  every `caches`/`cache` operation rejects) and whether `caches.delete` succeeds for a name.
* `cache.put` and `cache.addAll` refuse what the Cache API refuses: a request URL that is
  not http(s), a response with status 206, a response whose `Vary` header lists `*`.
* A listener returns an outcome record: what was passed to `event.respondWith`, the storage
  after the operations the listener awaited (`store`), the storage operations it started
  without awaiting them (`detached`, in order), and the trace of the calls it made.  A
  detached operation may complete before or after the promise settles: the storage at that
  moment is `storageAtSettle`, for any number of detached operations already completed.
-/

namespace SW

/-! ## Host data -/

/-- The way a promise settles. -/
inductive Settled (α : Type) where
  | fulfilled (value : α)
  | rejected
deriving DecidableEq, Repr

/-- An HTTP response as seen by the script. -/
structure Response where
  status : Nat
  statusText : String
  headers : List (String × String)
  body : String
deriving DecidableEq, Repr

/-- The request of a fetch event; `pathname` is `new URL(request.url).pathname`. -/
structure Request where
  method : String
  url : String
  pathname : String
  destination : String
deriving DecidableEq, Repr

/-- One cache: entries keyed by request URL. -/
abbrev Cache := List (String × Response)

/-- The global `caches`: named caches in creation order. -/
abbrev CacheStorage := List (String × Cache)

/-- The environment the worker runs in. -/
structure Env where
  /-- how `fetch(url)` settles -/
  fetch : String → Settled Response
  /-- whether the cache backend is reachable; when not, every storage operation rejects -/
  cacheUp : Bool
  /-- whether `caches.delete(name)` succeeds -/
  deleteOk : String → Bool
  /-- the origin of the worker, against which root-relative URLs resolve -/
  origin : String
  /-- whether a response already handed to `respondWith` can still be cloned when a later
  callback runs, that is, whether its body has not been read by then -/
  lateCloneOk : Bool

/-- A storage read or a network call performed by a listener. -/
inductive Op where
  | cachesOpen (cacheName : String)
  | cacheMatch (cacheName url : String)
  | cachesMatch (url : String)
  | fetch (url : String)
deriving DecidableEq, Repr

/-- A storage operation that was started but whose promise nobody awaits. -/
inductive DetachedOp where
  | cachesOpen (cacheName : String)
  | cachePut (cacheName url : String) (response : Response)
deriving DecidableEq, Repr

/-! ## JavaScript string helpers -/

/-- `s.endsWith(suffix)`. -/
def endsWith (s suffix : String) : Bool :=
  suffix.data.isSuffixOf s.data

/-- `s.includes(sub)`. -/
def includes (s sub : String) : Bool :=
  s.data.tails.any (fun t => sub.data.isPrefixOf t)

/-- `s.startsWith(p)`. -/
def startsWith (s p : String) : Bool :=
  p.data.isPrefixOf s.data

/-! ## What the Cache API refuses to store -/

/-- Whether the URL has scheme http or https. -/
def isHttpUrl (url : String) : Bool :=
  startsWith url "http://" || startsWith url "https://"

/-- Space or tab. -/
def isBlank (c : Char) : Bool :=
  c = Char.ofNat 32 || c = Char.ofNat 9

/-- The characters without leading and trailing blanks. -/
def trimBlanks (l : List Char) : List Char :=
  ((l.dropWhile isBlank).reverse.dropWhile isBlank).reverse

/-- The comma-separated pieces of a header value. -/
def splitComma : List Char → List (List Char)
  | [] => [[]]
  | c :: cs =>
    if c = Char.ofNat 44 then [] :: splitComma cs
    else
      match splitComma cs with
      | [] => [[c]]
      | w :: ws => (c :: w) :: ws

/-- Whether the response has a `Vary` header one of whose field values is `*`. -/
def varyStar (r : Response) : Bool :=
  r.headers.any (fun h =>
    h.1.data.map Char.toLower == "vary".data &&
      (splitComma h.2.data).any (fun v => trimBlanks v == "*".data))

/-- Whether `cache.put(request, response)` accepts the pair (the request being a GET). -/
def putAccepts (url : String) (r : Response) : Bool :=
  isHttpUrl url && !decide (r.status = 206) && !varyStar r

/-- `response.ok`. -/
def Response.ok (r : Response) : Bool :=
  200 ≤ r.status && r.status ≤ 299

/-- Whether `cache.addAll` accepts the response fetched for `url`. -/
def addAllAccepts (url : String) (r : Response) : Bool :=
  isHttpUrl url && r.ok && !decide (r.status = 206) && !varyStar r

/-! ## The cache store -/

/-- The entry stored under `url`, if any. -/
def Cache.find : Cache → String → Option Response
  | [], _ => none
  | e :: rest, url => if e.1 = url then some e.2 else Cache.find rest url

/-- Store `r` under `url`, replacing any entry with the same key. -/
def Cache.put (c : Cache) (url : String) (r : Response) : Cache :=
  c.filter (fun e => !decide (e.1 = url)) ++ [(url, r)]

/-- `caches.has(name)`. -/
def CacheStorage.has (st : CacheStorage) (name : String) : Bool :=
  st.any (fun p => decide (p.1 = name))

/-- The entries of the cache called `name`; a cache that does not exist has none. -/
def CacheStorage.region : CacheStorage → String → Cache
  | [], _ => []
  | p :: rest, name => if p.1 = name then p.2 else CacheStorage.region rest name

/-- The storage after `caches.open(name)`: the cache is created empty when absent. -/
def CacheStorage.ensure (st : CacheStorage) (name : String) : CacheStorage :=
  if st.has name then st else st ++ [(name, [])]

/-- The storage after a completed `put` into the cache called `name`. -/
def CacheStorage.putIn (st : CacheStorage) (name url : String) (r : Response) : CacheStorage :=
  (st.ensure name).map (fun p => if p.1 = name then (p.1, Cache.put p.2 url r) else p)

/-- The first entry stored under `url` in any cache, in creation order. -/
def CacheStorage.findAny : CacheStorage → String → Option Response
  | [], _ => none
  | p :: rest, url =>
    match Cache.find p.2 url with
    | some r => some r
    | none => CacheStorage.findAny rest url

/-- The storage without the cache called `name`. -/
def CacheStorage.remove (st : CacheStorage) (name : String) : CacheStorage :=
  st.filter (fun p => !decide (p.1 = name))

/-- The names of the caches, as `caches.keys()` lists them. -/
def CacheStorage.names (st : CacheStorage) : List String :=
  st.map Prod.fst

/-! ## Promise-returning host operations -/

/-- `caches.open(name)`: fulfils with the storage in which the cache exists. -/
def cachesOpen (env : Env) (st : CacheStorage) (name : String) : Settled CacheStorage :=
  if env.cacheUp then .fulfilled (st.ensure name) else .rejected

/-- `cache.match(request)` on the cache called `name`. -/
def cacheMatch (env : Env) (st : CacheStorage) (name url : String) :
    Settled (Option Response) :=
  if env.cacheUp then .fulfilled (Cache.find (st.region name) url) else .rejected

/-- `caches.match(request)`: looks through every cache. -/
def cachesMatch (env : Env) (st : CacheStorage) (url : String) : Settled (Option Response) :=
  if env.cacheUp then .fulfilled (st.findAny url) else .rejected

/-- `caches.keys()`. -/
def cachesKeys (env : Env) (st : CacheStorage) : Settled (List String) :=
  if env.cacheUp then .fulfilled st.names else .rejected

/-- The storage after `caches.delete(name)` has settled. -/
def cachesDelete (env : Env) (st : CacheStorage) (name : String) : CacheStorage :=
  if env.cacheUp && env.deleteOk name then st.remove name else st

/-- `cache.put(request, response)` on the cache called `name`: fulfils with the storage
holding the entry, or rejects when the backend is down or the Cache API refuses the pair. -/
def cachePut (env : Env) (st : CacheStorage) (name url : String) (r : Response) :
    Settled CacheStorage :=
  if env.cacheUp && putAccepts url r then .fulfilled (st.putIn name url r) else .rejected

/-- The storage after one detached operation has settled; a rejected one changes nothing. -/
def runOp (env : Env) (st : CacheStorage) : DetachedOp → CacheStorage
  | .cachesOpen name =>
    match cachesOpen env st name with
    | .fulfilled st1 => st1
    | .rejected => st
  | .cachePut name url r =>
    match cachePut env st name url r with
    | .fulfilled st1 => st1
    | .rejected => st

/-- The storage after the given detached operations have settled, in order. -/
def runDetached (env : Env) (st : CacheStorage) (ops : List DetachedOp) : CacheStorage :=
  ops.foldl (runOp env) st

/-- `new Response(body, { status, statusText, headers })`; a string body gets the default
content type unless the headers name one. -/
def newResponse (body : String) (status : Nat) (statusText : String)
    (headers : List (String × String)) : Response :=
  { status := status
    statusText := statusText
    headers :=
      if headers.any (fun h => h.1.data.map Char.toLower == "content-type".data) then headers
      else headers ++ [("content-type", "text/plain;charset=UTF-8")]
    body := body }

/-! ## Constants of `sw.js` -/

def CACHE_VERSION : String := "techflow-v1.2"
def CACHE_ASSETS : String := "techflow-assets-v1"
def CACHE_IMAGES : String := "techflow-images-v1"

/-- The list passed to `cache.addAll` in the install listener. -/
def PRECACHE_URLS : List String :=
  [ "/",
    "/index.html",
    "/miniapp.html",
    "/admin.html",
    "https://cdnjs.cloudflare.com/ajax/libs/font-awesome/6.4.0/css/all.min.css",
    "https://unpkg.com/vue@3/dist/vue.global.js" ]

/-- Body of the placeholder image. -/
def NO_IMAGE_SVG : String :=
  "<svg width=\"100\" height=\"100\" xmlns=\"http://www.w3.org/2000/svg\"><rect width=\"100\" height=\"100\" fill=\"#ddd\"/><text x=\"50\" y=\"50\" text-anchor=\"middle\" dy=\".3em\" fill=\"#999\" font-size=\"12\">No Image</text></svg>"

/-! ## The fetch listener -/

/-- What a run of the fetch listener did. -/
structure FetchOutcome where
  /-- the settled promise given to `event.respondWith`; `none` when `respondWith` was never
  called, so that the request passes through to the host; a promise fulfilled with `none`
  is one resolved with `undefined` -/
  respondWith : Option (Settled (Option Response))
  /-- the storage after the operations the listener awaited -/
  store : CacheStorage
  /-- storage operations started but not awaited, in the order in which they run; each may
  complete before or after the promise settles -/
  detached : List DetachedOp
  /-- the `caches`, `cache` and `fetch` calls made before the promise settles, in order -/
  trace : List Op
deriving DecidableEq, Repr

/-- The storage at the moment the promise given to `respondWith` settles, when `landed` of
the detached operations have completed by then. -/
def storageAtSettle (env : Env) (out : FetchOutcome) (landed : Nat) : CacheStorage :=
  runDetached env out.store (out.detached.take landed)

/-- The storage once every detached operation has settled. -/
def storageFinally (env : Env) (out : FetchOutcome) : CacheStorage :=
  runDetached env out.store out.detached

/-- Lines 67-84: cache first on `CACHE_ASSETS`.  On a miss answered by the network the
`put` is started with a clone taken before the response is returned, and is not awaited. -/
def assetsBranch (env : Env) (st : CacheStorage) (request : Request) : FetchOutcome :=
  match cachesOpen env st CACHE_ASSETS with
  | .rejected =>
    { respondWith := some .rejected, store := st, detached := [],
      trace := [.cachesOpen CACHE_ASSETS] }
  | .fulfilled st1 =>
    match cacheMatch env st1 CACHE_ASSETS request.url with
    | .rejected =>
      { respondWith := some .rejected, store := st1, detached := [],
        trace := [.cachesOpen CACHE_ASSETS, .cacheMatch CACHE_ASSETS request.url] }
    | .fulfilled (some response) =>
      { respondWith := some (.fulfilled (some response)), store := st1, detached := [],
        trace := [.cachesOpen CACHE_ASSETS, .cacheMatch CACHE_ASSETS request.url] }
    | .fulfilled none =>
      match env.fetch request.url with
      | .fulfilled networkResponse =>
        { respondWith := some (.fulfilled (some networkResponse)), store := st1,
          detached := [.cachePut CACHE_ASSETS request.url networkResponse],
          trace := [.cachesOpen CACHE_ASSETS, .cacheMatch CACHE_ASSETS request.url,
                    .fetch request.url] }
      | .rejected =>
        { respondWith := some (.fulfilled (some
            (newResponse "Ошибка загрузки ресурса" 503 "Service Unavailable" []))),
          store := st1, detached := [],
          trace := [.cachesOpen CACHE_ASSETS, .cacheMatch CACHE_ASSETS request.url,
                    .fetch request.url] }

/-- Lines 93-113: network first, falling back to any cache.  On a 200 answer
`caches.open(CACHE_VERSION)` is called before the response is returned; the `put`, and the
`clone()` it needs, happen in a later callback that runs only if the open fulfils. -/
def pageBranch (env : Env) (st : CacheStorage) (request : Request) : FetchOutcome :=
  match env.fetch request.url with
  | .fulfilled networkResponse =>
    if networkResponse.status = 200 then
      { respondWith := some (.fulfilled (some networkResponse)), store := st,
        detached :=
          match cachesOpen env st CACHE_VERSION with
          | .rejected => [.cachesOpen CACHE_VERSION]
          | .fulfilled _ =>
            if env.lateCloneOk then
              [.cachesOpen CACHE_VERSION,
                .cachePut CACHE_VERSION request.url networkResponse]
            else [.cachesOpen CACHE_VERSION],
        trace := [.fetch request.url, .cachesOpen CACHE_VERSION] }
    else
      { respondWith := some (.fulfilled (some networkResponse)), store := st,
        detached := [], trace := [.fetch request.url] }
  | .rejected =>
    match cachesMatch env st request.url with
    | .rejected =>
      { respondWith := some .rejected, store := st, detached := [],
        trace := [.fetch request.url, .cachesMatch request.url] }
    | .fulfilled (some cachedResponse) =>
      { respondWith := some (.fulfilled (some cachedResponse)), store := st, detached := [],
        trace := [.fetch request.url, .cachesMatch request.url] }
    | .fulfilled none =>
      { respondWith := some (.fulfilled (some
          (newResponse "Вы оффлайн. Используйте кэшированные данные." 503
            "Service Unavailable" []))),
        store := st, detached := [],
        trace := [.fetch request.url, .cachesMatch request.url] }

/-- Lines 119-138: cache first on `CACHE_IMAGES`, with the placeholder image. -/
def imageBranch (env : Env) (st : CacheStorage) (request : Request) : FetchOutcome :=
  match cachesOpen env st CACHE_IMAGES with
  | .rejected =>
    { respondWith := some .rejected, store := st, detached := [],
      trace := [.cachesOpen CACHE_IMAGES] }
  | .fulfilled st1 =>
    match cacheMatch env st1 CACHE_IMAGES request.url with
    | .rejected =>
      { respondWith := some .rejected, store := st1, detached := [],
        trace := [.cachesOpen CACHE_IMAGES, .cacheMatch CACHE_IMAGES request.url] }
    | .fulfilled (some response) =>
      { respondWith := some (.fulfilled (some response)), store := st1, detached := [],
        trace := [.cachesOpen CACHE_IMAGES, .cacheMatch CACHE_IMAGES request.url] }
    | .fulfilled none =>
      match env.fetch request.url with
      | .fulfilled networkResponse =>
        { respondWith := some (.fulfilled (some networkResponse)), store := st1,
          detached := [.cachePut CACHE_IMAGES request.url networkResponse],
          trace := [.cachesOpen CACHE_IMAGES, .cacheMatch CACHE_IMAGES request.url,
                    .fetch request.url] }
      | .rejected =>
        { respondWith := some (.fulfilled (some
            (newResponse NO_IMAGE_SVG 200 "" [("Content-Type", "image/svg+xml")]))),
          store := st1, detached := [],
          trace := [.cachesOpen CACHE_IMAGES, .cacheMatch CACHE_IMAGES request.url,
                    .fetch request.url] }

/-- Lines 143-160: the default, network first; the success path has the shape of the
page branch. -/
def defaultBranch (env : Env) (st : CacheStorage) (request : Request) : FetchOutcome :=
  match env.fetch request.url with
  | .fulfilled response =>
    if response.status = 200 then
      { respondWith := some (.fulfilled (some response)), store := st,
        detached :=
          match cachesOpen env st CACHE_VERSION with
          | .rejected => [.cachesOpen CACHE_VERSION]
          | .fulfilled _ =>
            if env.lateCloneOk then
              [.cachesOpen CACHE_VERSION, .cachePut CACHE_VERSION request.url response]
            else [.cachesOpen CACHE_VERSION],
        trace := [.fetch request.url, .cachesOpen CACHE_VERSION] }
    else
      { respondWith := some (.fulfilled (some response)), store := st,
        detached := [], trace := [.fetch request.url] }
  | .rejected =>
    match cachesMatch env st request.url with
    | .rejected =>
      { respondWith := some (.fulfilled (some
          (newResponse "Вы оффлайн" 503 "Service Unavailable" []))),
        store := st, detached := [],
        trace := [.fetch request.url, .cachesMatch request.url] }
    | .fulfilled found =>
      { respondWith := some (.fulfilled found), store := st, detached := [],
        trace := [.fetch request.url, .cachesMatch request.url] }

/-- The `fetch` listener (lines 52-161). -/
def fetchListener (env : Env) (st : CacheStorage) (request : Request) : FetchOutcome :=
  if request.method ≠ "GET" then
    { respondWith := none, store := st, detached := [], trace := [] }
  else if endsWith request.pathname ".js" || endsWith request.pathname ".css" ||
      endsWith request.pathname ".woff" || endsWith request.pathname ".woff2" then
    assetsBranch env st request
  else if endsWith request.pathname ".html" || includes request.pathname "/data/" ||
      includes request.url "github.com" then
    pageBranch env st request
  else if request.destination = "image" then
    imageBranch env st request
  else
    defaultBranch env st request

/-! ## The install listener -/

/-- The absolute URL a URL given to `cache.addAll` resolves to against the worker origin. -/
def resolveURL (origin url : String) : String :=
  if startsWith url "/" then origin ++ url else url

/-- The fetching half of `cache.addAll(urls)`: the entries to store, or `none` when a fetch
rejects or is answered by a response `addAll` does not accept (the whole `addAll` then
rejects and stores nothing). -/
def addAllFetch (env : Env) : List String → Option (List (String × Response))
  | [] => some []
  | url :: rest =>
    match env.fetch (resolveURL env.origin url) with
    | .rejected => none
    | .fulfilled r =>
      if addAllAccepts (resolveURL env.origin url) r then
        match addAllFetch env rest with
        | some entries => some ((resolveURL env.origin url, r) :: entries)
        | none => none
      else none

/-- Whether the fetch that `cache.addAll` performs for `url` fulfils with a response that
`addAll` accepts. -/
def seedFetchSucceeds (env : Env) (url : String) : Bool :=
  match env.fetch (resolveURL env.origin url) with
  | .fulfilled r => addAllAccepts (resolveURL env.origin url) r
  | .rejected => false

/-- What a run of the install listener did. -/
structure InstallOutcome where
  /-- the storage when the promise given to `event.waitUntil` settles -/
  store : CacheStorage
  /-- whether the `.catch` callback ran -/
  errorLogged : Bool
  /-- whether `self.skipWaiting()` was called -/
  skippedWaiting : Bool
deriving DecidableEq, Repr

/-- The `install` listener (lines 10-30). -/
def installListener (env : Env) (st : CacheStorage) : InstallOutcome :=
  match cachesOpen env st CACHE_VERSION with
  | .rejected => { store := st, errorLogged := true, skippedWaiting := true }
  | .fulfilled st1 =>
    match addAllFetch env PRECACHE_URLS with
    | none => { store := st1, errorLogged := true, skippedWaiting := true }
    | some entries =>
      { store := entries.foldl (fun s e => s.putIn CACHE_VERSION e.1 e.2) st1,
        errorLogged := false, skippedWaiting := true }

/-! ## The activate listener -/

/-- What a run of the activate listener did. -/
structure ActivateOutcome where
  /-- the names `caches.delete` was called with, in order -/
  deleteRequested : List String
  /-- the storage when the promise given to `event.waitUntil` settles -/
  store : CacheStorage
  /-- whether `self.clients.claim()` was reached -/
  claimed : Bool
deriving DecidableEq, Repr

/-- The `activate` listener (lines 33-49). -/
def activateListener (env : Env) (st : CacheStorage) : ActivateOutcome :=
  match cachesKeys env st with
  | .rejected => { deleteRequested := [], store := st, claimed := false }
  | .fulfilled cacheNames =>
    { deleteRequested :=
        cacheNames.filter (fun cacheName =>
          decide (cacheName ≠ CACHE_VERSION ∧ cacheName ≠ CACHE_ASSETS ∧
            cacheName ≠ CACHE_IMAGES)),
      store :=
        (cacheNames.filter (fun cacheName =>
          decide (cacheName ≠ CACHE_VERSION ∧ cacheName ≠ CACHE_ASSETS ∧
            cacheName ≠ CACHE_IMAGES))).foldl (cachesDelete env) st,
      claimed :=
        (cacheNames.filter (fun cacheName =>
          decide (cacheName ≠ CACHE_VERSION ∧ cacheName ≠ CACHE_ASSETS ∧
            cacheName ≠ CACHE_IMAGES))).all env.deleteOk }

/-! ## The classifier of the specification -/

/-- The request classes of the specification. -/
inductive RequestClass where
  | staticAsset
  | pageOrData
  | image
  | other
deriving DecidableEq, Repr

/-- The rules of the specification (section 4.1), in the order in which they are tried. -/
def classifyRules : List ((Request → Bool) × RequestClass) :=
  [ (fun r => [".js", ".css", ".woff", ".woff2"].any (fun ext => endsWith r.pathname ext),
      RequestClass.staticAsset),
    (fun r => endsWith r.pathname ".html" || includes r.pathname "/data/" ||
        includes r.url "github.com",
      RequestClass.pageOrData),
    (fun r => decide (r.destination = "image"), RequestClass.image) ]

/-- First match wins; a request no rule matches is of class `other`. -/
def classify (r : Request) : RequestClass :=
  match classifyRules.find? (fun rule => rule.1 r) with
  | some rule => rule.2
  | none => RequestClass.other

/-- The strategy the specification assigns to each class. -/
def strategyOf : RequestClass → Env → CacheStorage → Request → FetchOutcome
  | .staticAsset => assetsBranch
  | .pageOrData => pageBranch
  | .image => imageBranch
  | .other => defaultBranch

/-- The names the activate listener keeps. -/
def recognizedNames : List String := [CACHE_VERSION, CACHE_ASSETS, CACHE_IMAGES]

/-! ## Sample inputs -/

/-- A network on which every fetch rejects, with a working cache backend. -/
def offlineEnv : Env :=
  { fetch := fun _ => .rejected, cacheUp := true, deleteOk := fun _ => true,
    origin := "https://techflow.example", lateCloneOk := true }

/-- No network and no cache backend. -/
def brokenEnv : Env :=
  { fetch := fun _ => .rejected, cacheUp := false, deleteOk := fun _ => true,
    origin := "https://techflow.example", lateCloneOk := true }

/-- A plain successful response. -/
def sampleResponse : Response :=
  { status := 200, statusText := "OK", headers := [], body := "x" }

/-- A response with status 404. -/
def notFoundResponse : Response :=
  { status := 404, statusText := "Not Found", headers := [], body := "" }

/-- A network on which every fetch answers `sampleResponse`. -/
def onlineEnv : Env :=
  { fetch := fun _ => .fulfilled sampleResponse, cacheUp := true, deleteOk := fun _ => true,
    origin := "https://techflow.example", lateCloneOk := true }

/-- A 200 response that the Cache API refuses to store: its `Vary` header lists `*`. -/
def varyStarResponse : Response :=
  { status := 200, statusText := "OK", headers := [("Vary", "Accept, *")], body := "x" }

/-- A partial response, which the Cache API refuses to store. -/
def partialResponse : Response :=
  { status := 206, statusText := "Partial Content", headers := [], body := "x" }

/-- A network on which every fetch answers `varyStarResponse`. -/
def varyStarEnv : Env :=
  { fetch := fun _ => .fulfilled varyStarResponse, cacheUp := true, deleteOk := fun _ => true,
    origin := "https://techflow.example", lateCloneOk := true }

/-- A network on which every fetch answers `partialResponse`. -/
def partialEnv : Env :=
  { fetch := fun _ => .fulfilled partialResponse, cacheUp := true, deleteOk := fun _ => true,
    origin := "https://techflow.example", lateCloneOk := true }

/-- A working network with an unreachable cache backend. -/
def cacheDownEnv : Env :=
  { fetch := fun _ => .fulfilled sampleResponse, cacheUp := false,
    deleteOk := fun _ => true, origin := "https://techflow.example", lateCloneOk := true }

/-- A working network and cache backend, where the body of a response handed to
`respondWith` has been read by the time a later callback wants to clone it. -/
def lateCloneEnv : Env :=
  { fetch := fun _ => .fulfilled sampleResponse, cacheUp := true, deleteOk := fun _ => true,
    origin := "https://techflow.example", lateCloneOk := false }

/-- A script request that the page wants as an image. -/
def scriptRequest : Request :=
  { method := "GET", url := "https://techflow.example/app.js", pathname := "/app.js",
    destination := "image" }

/-- A page request. -/
def pageRequest : Request :=
  { method := "GET", url := "https://techflow.example/index.html", pathname := "/index.html",
    destination := "document" }

/-- An image request. -/
def imageRequest : Request :=
  { method := "GET", url := "https://techflow.example/logo.png", pathname := "/logo.png",
    destination := "image" }

/-- A request no rule matches. -/
def otherRequest : Request :=
  { method := "GET", url := "https://techflow.example/api/news", pathname := "/api/news",
    destination := "" }

/-- A POST to a script URL. -/
def postRequest : Request :=
  { method := "POST", url := "https://techflow.example/app.js", pathname := "/app.js",
    destination := "image" }

/-! ## Dispatch -/

theorem classify_eq (r : Request) :
    classify r =
      if (endsWith r.pathname ".js" || endsWith r.pathname ".css" ||
          endsWith r.pathname ".woff" || endsWith r.pathname ".woff2") = true then
        RequestClass.staticAsset
      else if (endsWith r.pathname ".html" || includes r.pathname "/data/" ||
          includes r.url "github.com") = true then
        RequestClass.pageOrData
      else if r.destination = "image" then RequestClass.image
      else RequestClass.other := by
  unfold classify classifyRules
  simp only [List.find?, List.any, Bool.or_false]
  cases endsWith r.pathname ".js" <;> cases endsWith r.pathname ".css" <;>
    cases endsWith r.pathname ".woff" <;> cases endsWith r.pathname ".woff2" <;>
    cases endsWith r.pathname ".html" <;> cases includes r.pathname "/data/" <;>
    cases includes r.url "github.com" <;>
    by_cases h8 : r.destination = "image" <;> simp [h8]

theorem fetchListener_eq_strategyOf (env : Env) (st : CacheStorage) (request : Request)
    (hget : request.method = "GET") :
    fetchListener env st request = strategyOf (classify request) env st request := by
  rw [classify_eq]
  unfold fetchListener
  simp only [hget, ne_eq, not_true_eq_false, if_false]
  split
  · rfl
  · split
    · rfl
    · split <;> rfl

/-! ## Facts about the cache store -/

theorem region_append_new (st : CacheStorage) (n m : String) :
    CacheStorage.region (st ++ [(n, [])]) m = CacheStorage.region st m := by
  induction st with
  | nil => simp [CacheStorage.region]
  | cons p rest ih =>
    obtain ⟨k, c⟩ := p
    simp [CacheStorage.region, ih]

theorem region_ensure (st : CacheStorage) (n m : String) :
    (st.ensure n).region m = st.region m := by
  unfold CacheStorage.ensure
  split
  · rfl
  · exact region_append_new st n m

theorem has_of_region_ne_nil (st : CacheStorage) (n : String) (h : st.region n ≠ []) :
    st.has n = true := by
  induction st with
  | nil => simp [CacheStorage.region] at h
  | cons p rest ih =>
    obtain ⟨k, c⟩ := p
    by_cases hk : k = n
    · simp [CacheStorage.has, hk]
    · simp only [CacheStorage.region, hk, if_false] at h
      have := ih h
      simp only [CacheStorage.has] at this
      simp [CacheStorage.has, this]

theorem ensure_eq_of_find (st : CacheStorage) (n url : String) (r : Response)
    (h : Cache.find (st.region n) url = some r) : st.ensure n = st := by
  have hne : st.region n ≠ [] := by
    intro h0
    rw [h0] at h
    simp [Cache.find] at h
  simp [CacheStorage.ensure, has_of_region_ne_nil st n hne]

theorem has_ensure (st : CacheStorage) (n : String) : (st.ensure n).has n = true := by
  unfold CacheStorage.ensure
  split
  · assumption
  · simp [CacheStorage.has]

theorem find_append_single (c : Cache) (url u : String) (r : Response) :
    Cache.find (c ++ [(url, r)]) u =
      match Cache.find c u with
      | some x => some x
      | none => if url = u then some r else none := by
  induction c with
  | nil => simp [Cache.find]
  | cons e rest ih =>
    obtain ⟨k, x⟩ := e
    by_cases hk : k = u
    · simp [Cache.find, hk]
    · simp [Cache.find, hk, ih]

theorem find_filter_ne (c : Cache) (url u : String) :
    Cache.find (c.filter (fun e => !decide (e.1 = url))) u =
      if u = url then none else Cache.find c u := by
  induction c with
  | nil => simp [Cache.find]
  | cons e rest ih =>
    obtain ⟨k, x⟩ := e
    by_cases hk : k = url
    · subst hk
      by_cases hu : u = k
      · subst hu
        simpa [List.filter] using ih
      · have hu2 : ¬ k = u := fun h => hu h.symm
        simp [List.filter, ih, hu, hu2, Cache.find]
    · by_cases hu : k = u
      · subst hu
        simp [List.filter, hk, Cache.find]
      · simp [List.filter, hk, Cache.find, hu, ih]

theorem find_put_same (c : Cache) (url : String) (r : Response) :
    Cache.find (Cache.put c url r) url = some r := by
  simp [Cache.put, find_append_single, find_filter_ne]

theorem find_put_other (c : Cache) (url u : String) (r : Response) (h : u ≠ url) :
    Cache.find (Cache.put c url r) u = Cache.find c u := by
  have h2 : ¬ url = u := fun e => h e.symm
  simp only [Cache.put, find_append_single, find_filter_ne, h, h2, if_false]
  cases Cache.find c u <;> rfl

theorem region_map_put (st : CacheStorage) (n url : String) (r : Response)
    (h : st.has n = true) :
    CacheStorage.region
        (st.map (fun p => if p.1 = n then (p.1, Cache.put p.2 url r) else p)) n =
      Cache.put (st.region n) url r := by
  induction st with
  | nil => simp [CacheStorage.has] at h
  | cons p rest ih =>
    obtain ⟨k, c⟩ := p
    by_cases hk : k = n
    · simp [CacheStorage.region, hk]
    · have hrest : CacheStorage.has rest n = true := by
        simpa [CacheStorage.has, hk] using h
      simp [CacheStorage.region, hk, ih hrest]

theorem region_putIn_same (st : CacheStorage) (n url : String) (r : Response) :
    (st.putIn n url r).region n = Cache.put (st.region n) url r := by
  unfold CacheStorage.putIn
  rw [region_map_put _ _ _ _ (has_ensure st n), region_ensure]

theorem find_putIn_same (st : CacheStorage) (n url : String) (r : Response) :
    Cache.find ((st.putIn n url r).region n) url = some r := by
  rw [region_putIn_same, find_put_same]

theorem find_putIn_other (st : CacheStorage) (n url u : String) (r : Response) (h : u ≠ url) :
    Cache.find ((st.putIn n url r).region n) u = Cache.find (st.region n) u := by
  rw [region_putIn_same, find_put_other _ _ _ _ h]

theorem names_putIn (st : CacheStorage) (n url : String) (r : Response) :
    (st.putIn n url r).names = (st.ensure n).names := by
  unfold CacheStorage.putIn CacheStorage.names
  rw [List.map_map]
  apply List.map_congr_left
  intro p _
  by_cases hp : p.1 = n <;> simp [hp]

theorem has_iff_mem_names (st : CacheStorage) (n : String) :
    st.has n = true ↔ n ∈ st.names := by
  simp only [CacheStorage.has, CacheStorage.names, List.any_eq_true, List.mem_map,
    decide_eq_true_eq]

theorem has_putIn_same (st : CacheStorage) (n url : String) (r : Response) :
    (st.putIn n url r).has n = true := by
  rw [has_iff_mem_names, names_putIn, ← has_iff_mem_names]
  exact has_ensure st n

theorem cacheMatch_fulfilled (env : Env) (st : CacheStorage) (n url : String)
    (found : Option Response) (h : cacheMatch env st n url = .fulfilled found) :
    env.cacheUp = true ∧ Cache.find (st.region n) url = found := by
  unfold cacheMatch at h
  split at h
  · rename_i hup
    injection h with h
    exact ⟨hup, h⟩
  · cases h

theorem cachesMatch_fulfilled (env : Env) (st : CacheStorage) (url : String)
    (found : Option Response) (h : cachesMatch env st url = .fulfilled found) :
    env.cacheUp = true ∧ st.findAny url = found := by
  unfold cachesMatch at h
  split at h
  · rename_i hup
    injection h with h
    exact ⟨hup, h⟩
  · cases h

theorem cachesMatch_rejected (env : Env) (st : CacheStorage) (url : String)
    (h : cachesMatch env st url = .rejected) : env.cacheUp = false := by
  unfold cachesMatch at h
  split at h
  · cases h
  · rename_i hup
    simpa using hup

/-! ## Dispatch of the fetch listener -/

/-- C1: for every GET request the fetch listener runs the strategy of the class that the
first-match-wins rule list of the specification assigns to the request (static asset: cache
first on the assets cache; page or data: network first; image; otherwise the default).  In
particular a request whose path ends with `.js` and whose destination is `image` is
classified as a static asset and handled by the assets branch, not the image branch. -/
theorem fetch_selects_first_matching_rule (env : Env) (st : CacheStorage) (request : Request)
    (hget : request.method = "GET") :
    fetchListener env st request = strategyOf (classify request) env st request ∧
    (endsWith request.pathname ".js" = true → request.destination = "image" →
      classify request = RequestClass.staticAsset ∧
      fetchListener env st request = assetsBranch env st request) := by
  refine ⟨fetchListener_eq_strategyOf env st request hget, ?_⟩
  intro hjs _
  have hc : classify request = RequestClass.staticAsset := by
    rw [classify_eq]
    simp [hjs]
  refine ⟨hc, ?_⟩
  rw [fetchListener_eq_strategyOf env st request hget, hc]
  rfl

theorem fetch_selects_first_matching_rule_witness :
    scriptRequest.method = "GET" ∧
    (fetchListener offlineEnv [] scriptRequest =
        strategyOf (classify scriptRequest) offlineEnv [] scriptRequest ∧
      (endsWith scriptRequest.pathname ".js" = true → scriptRequest.destination = "image" →
        classify scriptRequest = RequestClass.staticAsset ∧
        fetchListener offlineEnv [] scriptRequest =
          assetsBranch offlineEnv [] scriptRequest)) :=
  ⟨by decide, fetch_selects_first_matching_rule offlineEnv [] scriptRequest (by decide)⟩

/-- C10: for every request whose method is not GET, whatever its URL and destination, the
fetch listener never calls `respondWith` (the request passes through), and it performs no
storage read, no storage write and no network call. -/
theorem non_get_passes_through (env : Env) (st : CacheStorage) (request : Request)
    (hmethod : request.method ≠ "GET") :
    fetchListener env st request =
      { respondWith := none, store := st, detached := [], trace := [] } := by
  unfold fetchListener
  rw [if_pos hmethod]

theorem non_get_passes_through_witness :
    postRequest.method ≠ "GET" ∧
    fetchListener onlineEnv [(CACHE_ASSETS, [(postRequest.url, sampleResponse)])] postRequest =
      { respondWith := none,
        store := [(CACHE_ASSETS, [(postRequest.url, sampleResponse)])],
        detached := [], trace := [] } :=
  ⟨by decide, non_get_passes_through onlineEnv _ postRequest (by decide)⟩

/-! ## Cache first -/

/-- C2: for every static-asset GET request such that the lookup in the assets cache yields
an entry, the listener responds with exactly that entry, performs no network call, starts no
write, and leaves the storage as it was. -/
theorem static_asset_hit_served_from_cache (env : Env) (st : CacheStorage)
    (request : Request) (response : Response)
    (hget : request.method = "GET")
    (hclass : classify request = RequestClass.staticAsset)
    (hhit : cacheMatch env st CACHE_ASSETS request.url = .fulfilled (some response)) :
    (fetchListener env st request).respondWith = some (.fulfilled (some response)) ∧
    (∀ url, Op.fetch url ∉ (fetchListener env st request).trace) ∧
    (fetchListener env st request).detached = [] ∧
    (fetchListener env st request).store = st ∧
    runDetached env (fetchListener env st request).store
      (fetchListener env st request).detached = st := by
  obtain ⟨hup, hfind⟩ := cacheMatch_fulfilled env st _ _ _ hhit
  have hens : st.ensure CACHE_ASSETS = st := ensure_eq_of_find st _ _ _ hfind
  rw [fetchListener_eq_strategyOf env st request hget, hclass]
  simp [strategyOf, assetsBranch, cachesOpen, cacheMatch, hup, hens, hfind, runDetached]

theorem static_asset_hit_served_from_cache_witness :
    scriptRequest.method = "GET" ∧
    classify scriptRequest = RequestClass.staticAsset ∧
    cacheMatch onlineEnv [(CACHE_ASSETS, [(scriptRequest.url, notFoundResponse)])]
      CACHE_ASSETS scriptRequest.url = .fulfilled (some notFoundResponse) ∧
    (fetchListener onlineEnv [(CACHE_ASSETS, [(scriptRequest.url, notFoundResponse)])]
      scriptRequest).respondWith = some (.fulfilled (some notFoundResponse)) :=
  ⟨by decide, by decide, by decide,
    (static_asset_hit_served_from_cache onlineEnv
      [(CACHE_ASSETS, [(scriptRequest.url, notFoundResponse)])] scriptRequest notFoundResponse
      (by decide) (by decide) (by decide)).1⟩

/-- C3, as stated, fails on a static-asset GET request with no entry in the assets cache
and a successful network fetch.  When the answer is one the Cache API refuses to store (a
200 answer whose `Vary` header lists `*`, or a 206 answer) the listener responds with it and
the assets cache never holds an entry for the request, not even after the `put` has settled.
And for a plain 200 answer the `put` is not awaited: if it has not completed when the
promise settles, the assets cache holds no entry at that moment. -/
theorem static_asset_miss_not_always_stored :
    scriptRequest.method = "GET" ∧
    classify scriptRequest = RequestClass.staticAsset ∧
    (cacheMatch varyStarEnv [] CACHE_ASSETS scriptRequest.url = .fulfilled none ∧
      varyStarEnv.fetch scriptRequest.url = .fulfilled varyStarResponse ∧
      (fetchListener varyStarEnv [] scriptRequest).respondWith =
        some (.fulfilled (some varyStarResponse)) ∧
      Cache.find
        ((storageFinally varyStarEnv
          (fetchListener varyStarEnv [] scriptRequest)).region CACHE_ASSETS)
        scriptRequest.url = none) ∧
    (cacheMatch partialEnv [] CACHE_ASSETS scriptRequest.url = .fulfilled none ∧
      partialEnv.fetch scriptRequest.url = .fulfilled partialResponse ∧
      (fetchListener partialEnv [] scriptRequest).respondWith =
        some (.fulfilled (some partialResponse)) ∧
      Cache.find
        ((storageFinally partialEnv
          (fetchListener partialEnv [] scriptRequest)).region CACHE_ASSETS)
        scriptRequest.url = none) ∧
    (cacheMatch onlineEnv [] CACHE_ASSETS scriptRequest.url = .fulfilled none ∧
      onlineEnv.fetch scriptRequest.url = .fulfilled sampleResponse ∧
      (fetchListener onlineEnv [] scriptRequest).respondWith =
        some (.fulfilled (some sampleResponse)) ∧
      Cache.find
        ((storageAtSettle onlineEnv
          (fetchListener onlineEnv [] scriptRequest) 0).region CACHE_ASSETS)
        scriptRequest.url = none) := by
  decide

/-- C3, amended: for every static-asset GET request with no entry in the assets cache and a
successful network fetch, the listener responds with the network response, and the one
storage operation it leaves running is a `put` of that response into the assets cache
under the request, started before the response is returned and not awaited.  Once that `put`
has settled: if the Cache API accepts the pair (http(s) URL, status other than 206, no
`Vary: *`) the assets cache holds an entry for the request equal to the returned response;
otherwise nothing has been stored and every cache has the entries it had. -/
theorem static_asset_miss_write_through (env : Env) (st : CacheStorage)
    (request : Request) (networkResponse : Response)
    (hget : request.method = "GET")
    (hclass : classify request = RequestClass.staticAsset)
    (hmiss : cacheMatch env st CACHE_ASSETS request.url = .fulfilled none)
    (hnet : env.fetch request.url = .fulfilled networkResponse) :
    (fetchListener env st request).respondWith = some (.fulfilled (some networkResponse)) ∧
    (fetchListener env st request).detached =
      [DetachedOp.cachePut CACHE_ASSETS request.url networkResponse] ∧
    (putAccepts request.url networkResponse = true →
      Cache.find
        ((storageFinally env (fetchListener env st request)).region CACHE_ASSETS)
        request.url = some networkResponse) ∧
    (putAccepts request.url networkResponse = false →
      ∀ name, (storageFinally env (fetchListener env st request)).region name =
        st.region name) := by
  obtain ⟨hup, hfind⟩ := cacheMatch_fulfilled env st _ _ _ hmiss
  rw [fetchListener_eq_strategyOf env st request hget, hclass]
  refine ⟨?_, ?_, ?_, ?_⟩
  · simp [strategyOf, assetsBranch, cachesOpen, cacheMatch, hup, hfind, hnet, region_ensure]
  · simp [strategyOf, assetsBranch, cachesOpen, cacheMatch, hup, hfind, hnet, region_ensure]
  · intro hacc
    simp [strategyOf, assetsBranch, cachesOpen, cacheMatch, hup, hfind, hnet, region_ensure,
      storageFinally, runDetached, runOp, cachePut, hacc, find_putIn_same]
  · intro hacc name
    simp [strategyOf, assetsBranch, cachesOpen, cacheMatch, hup, hfind, hnet, region_ensure,
      storageFinally, runDetached, runOp, cachePut, hacc]

theorem static_asset_miss_write_through_witness :
    scriptRequest.method = "GET" ∧
    classify scriptRequest = RequestClass.staticAsset ∧
    cacheMatch onlineEnv [] CACHE_ASSETS scriptRequest.url = .fulfilled none ∧
    onlineEnv.fetch scriptRequest.url = .fulfilled sampleResponse ∧
    putAccepts scriptRequest.url sampleResponse = true ∧
    Cache.find
      ((storageFinally onlineEnv (fetchListener onlineEnv [] scriptRequest)).region
        CACHE_ASSETS)
      scriptRequest.url = some sampleResponse :=
  ⟨by decide, by decide, by decide, by decide, by decide,
    (static_asset_miss_write_through onlineEnv [] scriptRequest sampleResponse
      (by decide) (by decide) (by decide) (by decide)).2.2.1 (by decide)⟩

/-! ## Network first -/

/-- C4, as stated, fails: on a page request answered with status 200 the version cache is
not always written.  When the `Vary` header of the answer lists `*` the `put` is refused;
when the cache backend is unreachable `caches.open` rejects and no `put` is made; when the
body of the returned response has been read before the later callback runs, `clone()` throws
and no `put` is made.  In all three runs the listener responds with the network response and
the version cache holds no entry for the request once everything has settled. -/
theorem network_first_200_not_always_written :
    pageRequest.method = "GET" ∧
    classify pageRequest = RequestClass.pageOrData ∧
    sampleResponse.status = 200 ∧ varyStarResponse.status = 200 ∧
    (varyStarEnv.fetch pageRequest.url = .fulfilled varyStarResponse ∧
      (fetchListener varyStarEnv [] pageRequest).respondWith =
        some (.fulfilled (some varyStarResponse)) ∧
      Cache.find
        ((storageFinally varyStarEnv
          (fetchListener varyStarEnv [] pageRequest)).region CACHE_VERSION)
        pageRequest.url = none) ∧
    (cacheDownEnv.fetch pageRequest.url = .fulfilled sampleResponse ∧
      (fetchListener cacheDownEnv [] pageRequest).respondWith =
        some (.fulfilled (some sampleResponse)) ∧
      (fetchListener cacheDownEnv [] pageRequest).detached =
        [DetachedOp.cachesOpen CACHE_VERSION] ∧
      Cache.find
        ((storageFinally cacheDownEnv
          (fetchListener cacheDownEnv [] pageRequest)).region CACHE_VERSION)
        pageRequest.url = none) ∧
    (lateCloneEnv.fetch pageRequest.url = .fulfilled sampleResponse ∧
      (fetchListener lateCloneEnv [] pageRequest).respondWith =
        some (.fulfilled (some sampleResponse)) ∧
      (fetchListener lateCloneEnv [] pageRequest).detached =
        [DetachedOp.cachesOpen CACHE_VERSION] ∧
      Cache.find
        ((storageFinally lateCloneEnv
          (fetchListener lateCloneEnv [] pageRequest)).region CACHE_VERSION)
        pageRequest.url = none) := by
  decide

theorem region_map_put_other (st : CacheStorage) (n m url : String) (r : Response)
    (h : m ≠ n) :
    CacheStorage.region
        (st.map (fun p => if p.1 = n then (p.1, Cache.put p.2 url r) else p)) m =
      st.region m := by
  induction st with
  | nil => rfl
  | cons p rest ih =>
    by_cases hp : p.1 = n
    · have hnm : ¬ n = m := fun e => h e.symm
      simp [CacheStorage.region, hp, hnm, ih]
    · simp [CacheStorage.region, hp, ih]

theorem region_putIn_other (st : CacheStorage) (n m url : String) (r : Response)
    (h : m ≠ n) : (st.putIn n url r).region m = st.region m := by
  unfold CacheStorage.putIn
  rw [region_map_put_other _ _ _ _ _ h, region_ensure]

/-- The operations a network-first branch leaves running after a 200 answer. -/
theorem network_first_final_storage (env : Env) (st : CacheStorage) (url : String)
    (r : Response) :
    (env.cacheUp = true → env.lateCloneOk = true → putAccepts url r = true →
      Cache.find
        ((runDetached env st
          (DetachedOp.cachesOpen CACHE_VERSION ::
            (if env.cacheUp = true ∧ env.lateCloneOk = true then
              [DetachedOp.cachePut CACHE_VERSION url r] else []))).region CACHE_VERSION)
        url = some r) ∧
    (¬ (env.cacheUp = true ∧ env.lateCloneOk = true ∧ putAccepts url r = true) →
      ∀ name,
        (runDetached env st
          (DetachedOp.cachesOpen CACHE_VERSION ::
            (if env.cacheUp = true ∧ env.lateCloneOk = true then
              [DetachedOp.cachePut CACHE_VERSION url r] else []))).region name =
        st.region name) ∧
    (∀ name, name ≠ CACHE_VERSION →
      (runDetached env st
        (DetachedOp.cachesOpen CACHE_VERSION ::
          (if env.cacheUp = true ∧ env.lateCloneOk = true then
            [DetachedOp.cachePut CACHE_VERSION url r] else []))).region name =
      st.region name) := by
  refine ⟨?_, ?_, ?_⟩
  · intro hup hclone hacc
    simp [runDetached, runOp, cachesOpen, cachePut, hup, hclone, hacc, find_putIn_same]
  · intro hnot name
    by_cases hup : env.cacheUp = true
    · by_cases hclone : env.lateCloneOk = true
      · have hacc : putAccepts url r = false := by
          cases h : putAccepts url r
          · rfl
          · exact absurd ⟨hup, hclone, h⟩ hnot
        simp [runDetached, runOp, cachesOpen, cachePut, hup, hclone, hacc, region_ensure]
      · simp [runDetached, runOp, cachesOpen, hup, hclone, region_ensure]
    · simp [runDetached, runOp, cachesOpen, hup]
  · intro name hname
    by_cases hup : env.cacheUp = true
    · by_cases hclone : env.lateCloneOk = true
      · cases hacc : putAccepts url r
        · simp [runDetached, runOp, cachesOpen, cachePut, hup, hclone, hacc, region_ensure]
        · simp [runDetached, runOp, cachesOpen, cachePut, hup, hclone, hacc, region_ensure,
            region_putIn_other _ _ _ _ _ hname]
      · simp [runDetached, runOp, cachesOpen, hup, hclone, region_ensure]
    · simp [runDetached, runOp, cachesOpen, hup]

theorem pageBranch_success (env : Env) (st : CacheStorage) (request : Request)
    (r : Response) (hnet : env.fetch request.url = .fulfilled r) :
    (pageBranch env st request).respondWith = some (.fulfilled (some r)) ∧
    (pageBranch env st request).store = st ∧
    (r.status ≠ 200 →
      (pageBranch env st request).detached = [] ∧
      (pageBranch env st request).trace = [Op.fetch request.url]) ∧
    (r.status = 200 →
      (pageBranch env st request).trace =
        [Op.fetch request.url, Op.cachesOpen CACHE_VERSION] ∧
      (pageBranch env st request).detached =
        DetachedOp.cachesOpen CACHE_VERSION ::
          (if env.cacheUp = true ∧ env.lateCloneOk = true then
            [DetachedOp.cachePut CACHE_VERSION request.url r] else [])) := by
  unfold pageBranch
  rw [hnet]
  by_cases h200 : r.status = 200
  · simp only [h200, if_true, true_and, ne_eq, not_true_eq_false, false_implies, true_implies,
      cachesOpen]
    cases env.cacheUp <;> cases env.lateCloneOk <;> simp
  · simp [h200]

theorem defaultBranch_success (env : Env) (st : CacheStorage) (request : Request)
    (r : Response) (hnet : env.fetch request.url = .fulfilled r) :
    (defaultBranch env st request).respondWith = some (.fulfilled (some r)) ∧
    (defaultBranch env st request).store = st ∧
    (r.status ≠ 200 →
      (defaultBranch env st request).detached = [] ∧
      (defaultBranch env st request).trace = [Op.fetch request.url]) ∧
    (r.status = 200 →
      (defaultBranch env st request).trace =
        [Op.fetch request.url, Op.cachesOpen CACHE_VERSION] ∧
      (defaultBranch env st request).detached =
        DetachedOp.cachesOpen CACHE_VERSION ::
          (if env.cacheUp = true ∧ env.lateCloneOk = true then
            [DetachedOp.cachePut CACHE_VERSION request.url r] else [])) := by
  unfold defaultBranch
  rw [hnet]
  by_cases h200 : r.status = 200
  · simp only [h200, if_true, true_and, ne_eq, not_true_eq_false, false_implies, true_implies,
      cachesOpen]
    cases env.cacheUp <;> cases env.lateCloneOk <;> simp
  · simp [h200]

/-- C4, amended: for every GET request of class page-or-data or other whose network fetch
succeeds, the listener responds with the network response itself.  For a status other than
200 it makes no storage call, leaves no operation running, and no cache is changed.  For
status 200 it calls `caches.open` on the version cache before returning and leaves that
open running; a `put` of the response into the version cache under the request follows
exactly when the open fulfils and the response can still be cloned.  Once everything has
settled the version cache holds the response under the request provided the Cache API
accepts the pair (http(s) URL, no `Vary: *`); when the open rejects, the clone fails or the
pair is refused, every cache has the entries it had.  No cache other than the version cache
ever changes its entries. -/
theorem network_first_success (env : Env) (st : CacheStorage)
    (request : Request) (networkResponse : Response)
    (hget : request.method = "GET")
    (hclass : classify request = RequestClass.pageOrData ∨
      classify request = RequestClass.other)
    (hnet : env.fetch request.url = .fulfilled networkResponse) :
    (fetchListener env st request).respondWith = some (.fulfilled (some networkResponse)) ∧
    (networkResponse.status ≠ 200 →
      (fetchListener env st request).trace = [Op.fetch request.url] ∧
      (fetchListener env st request).detached = [] ∧
      (fetchListener env st request).store = st ∧
      storageFinally env (fetchListener env st request) = st) ∧
    (networkResponse.status = 200 →
      (fetchListener env st request).trace =
        [Op.fetch request.url, Op.cachesOpen CACHE_VERSION] ∧
      (fetchListener env st request).detached =
        DetachedOp.cachesOpen CACHE_VERSION ::
          (if env.cacheUp = true ∧ env.lateCloneOk = true then
            [DetachedOp.cachePut CACHE_VERSION request.url networkResponse] else []) ∧
      (env.cacheUp = true → env.lateCloneOk = true →
        putAccepts request.url networkResponse = true →
        Cache.find
          ((storageFinally env (fetchListener env st request)).region CACHE_VERSION)
          request.url = some networkResponse) ∧
      (¬ (env.cacheUp = true ∧ env.lateCloneOk = true ∧
          putAccepts request.url networkResponse = true) →
        ∀ name, (storageFinally env (fetchListener env st request)).region name =
          st.region name)) ∧
    (∀ name, name ≠ CACHE_VERSION →
      (storageFinally env (fetchListener env st request)).region name = st.region name) := by
  have hfin := network_first_final_storage env st request.url networkResponse
  have key : ∀ out : FetchOutcome,
      out.respondWith = some (.fulfilled (some networkResponse)) ∧
      out.store = st ∧
      (networkResponse.status ≠ 200 →
        out.detached = [] ∧ out.trace = [Op.fetch request.url]) ∧
      (networkResponse.status = 200 →
        out.trace = [Op.fetch request.url, Op.cachesOpen CACHE_VERSION] ∧
        out.detached =
          DetachedOp.cachesOpen CACHE_VERSION ::
            (if env.cacheUp = true ∧ env.lateCloneOk = true then
              [DetachedOp.cachePut CACHE_VERSION request.url networkResponse] else [])) →
      out.respondWith = some (.fulfilled (some networkResponse)) ∧
      (networkResponse.status ≠ 200 →
        out.trace = [Op.fetch request.url] ∧ out.detached = [] ∧ out.store = st ∧
        storageFinally env out = st) ∧
      (networkResponse.status = 200 →
        out.trace = [Op.fetch request.url, Op.cachesOpen CACHE_VERSION] ∧
        out.detached =
          DetachedOp.cachesOpen CACHE_VERSION ::
            (if env.cacheUp = true ∧ env.lateCloneOk = true then
              [DetachedOp.cachePut CACHE_VERSION request.url networkResponse] else []) ∧
        (env.cacheUp = true → env.lateCloneOk = true →
          putAccepts request.url networkResponse = true →
          Cache.find ((storageFinally env out).region CACHE_VERSION) request.url =
            some networkResponse) ∧
        (¬ (env.cacheUp = true ∧ env.lateCloneOk = true ∧
            putAccepts request.url networkResponse = true) →
          ∀ name, (storageFinally env out).region name = st.region name)) ∧
      (∀ name, name ≠ CACHE_VERSION →
        (storageFinally env out).region name = st.region name) := by
    rintro out ⟨hresp, hstore, hne, heq⟩
    refine ⟨hresp, ?_, ?_, ?_⟩
    · intro h
      obtain ⟨hd, ht⟩ := hne h
      refine ⟨ht, hd, hstore, ?_⟩
      simp [storageFinally, hd, hstore, runDetached]
    · intro h
      obtain ⟨ht, hd⟩ := heq h
      refine ⟨ht, hd, ?_, ?_⟩
      · unfold storageFinally
        rw [hd, hstore]
        exact hfin.1
      · unfold storageFinally
        rw [hd, hstore]
        exact hfin.2.1
    · intro name hname
      by_cases h : networkResponse.status = 200
      · unfold storageFinally
        rw [(heq h).2, hstore]
        exact hfin.2.2 name hname
      · simp [storageFinally, (hne h).1, hstore, runDetached]
  rw [fetchListener_eq_strategyOf env st request hget]
  rcases hclass with hc | hc <;> rw [hc]
  · exact key _ (pageBranch_success env st request networkResponse hnet)
  · exact key _ (defaultBranch_success env st request networkResponse hnet)

theorem network_first_success_witness :
    pageRequest.method = "GET" ∧
    (classify pageRequest = RequestClass.pageOrData ∨
      classify pageRequest = RequestClass.other) ∧
    onlineEnv.fetch pageRequest.url = .fulfilled sampleResponse ∧
    sampleResponse.status = 200 ∧
    onlineEnv.cacheUp = true ∧ onlineEnv.lateCloneOk = true ∧
    putAccepts pageRequest.url sampleResponse = true ∧
    Cache.find
      ((storageFinally onlineEnv (fetchListener onlineEnv [] pageRequest)).region
        CACHE_VERSION)
      pageRequest.url = some sampleResponse :=
  ⟨by decide, by decide, by decide, by decide, by decide, by decide, by decide,
    (network_first_success onlineEnv [] pageRequest sampleResponse
      (by decide) (by decide) (by decide)).2.2.1 (by decide) |>.2.2.1
      (by decide) (by decide) (by decide)⟩

/-- C5: for every page-or-data GET request, if the network fetch fails and the lookup over
the caches yields no entry for the request, the listener responds with status 503, status
text "Service Unavailable" and body "Вы оффлайн. Используйте кэшированные данные.". -/
theorem page_offline_miss_503 (env : Env) (st : CacheStorage) (request : Request)
    (hget : request.method = "GET")
    (hclass : classify request = RequestClass.pageOrData)
    (hnet : env.fetch request.url = .rejected)
    (hmiss : cachesMatch env st request.url = .fulfilled none) :
    ∃ r : Response,
      (fetchListener env st request).respondWith = some (.fulfilled (some r)) ∧
      r.status = 503 ∧ r.statusText = "Service Unavailable" ∧
      r.body = "Вы оффлайн. Используйте кэшированные данные." := by
  rw [fetchListener_eq_strategyOf env st request hget, hclass]
  refine ⟨newResponse "Вы оффлайн. Используйте кэшированные данные." 503
    "Service Unavailable" [], ?_, rfl, rfl, rfl⟩
  simp [strategyOf, pageBranch, hnet, hmiss]

theorem page_offline_miss_503_witness :
    pageRequest.method = "GET" ∧
    classify pageRequest = RequestClass.pageOrData ∧
    offlineEnv.fetch pageRequest.url = .rejected ∧
    cachesMatch offlineEnv [] pageRequest.url = .fulfilled none ∧
    ∃ r : Response,
      (fetchListener offlineEnv [] pageRequest).respondWith = some (.fulfilled (some r)) ∧
      r.status = 503 ∧ r.statusText = "Service Unavailable" ∧
      r.body = "Вы оффлайн. Используйте кэшированные данные." :=
  ⟨by decide, by decide, by decide, by decide,
    page_offline_miss_503 offlineEnv [] pageRequest (by decide) (by decide) (by decide)
      (by decide)⟩

/-- C6, as stated, fails twice over on a request of class other whose network fetch fails:
when the lookup over the caches finds no entry the promise given to `respondWith` is
fulfilled with `undefined`, not with a response; and when the cache backend rejects the
lookup the body of the 503 response is "Вы оффлайн", without the full stop of the claim. -/
theorem default_offline_differs_from_claim :
    otherRequest.method = "GET" ∧
    classify otherRequest = RequestClass.other ∧
    offlineEnv.fetch otherRequest.url = .rejected ∧
    cachesMatch offlineEnv [] otherRequest.url = .fulfilled none ∧
    (fetchListener offlineEnv [] otherRequest).respondWith = some (.fulfilled none) ∧
    brokenEnv.fetch otherRequest.url = .rejected ∧
    cachesMatch brokenEnv [] otherRequest.url = .rejected ∧
    (∃ r : Response,
      (fetchListener brokenEnv [] otherRequest).respondWith = some (.fulfilled (some r)) ∧
      r.status = 503 ∧ r.body ≠ "Вы оффлайн.") := by
  refine ⟨by decide, by decide, by decide, by decide, by decide, by decide, by decide,
    newResponse "Вы оффлайн" 503 "Service Unavailable" [], by decide, by decide, by decide⟩

/-- C6, amended: for every GET request of class other, if the network fetch fails and the
cache backend rejects the lookup, the listener still responds with a well-formed response:
status 503, status text "Service Unavailable" and body exactly "Вы оффлайн" (no full stop);
the promise given to `respondWith` is fulfilled, not rejected. -/
theorem default_offline_backend_failure_503 (env : Env) (st : CacheStorage)
    (request : Request)
    (hget : request.method = "GET")
    (hclass : classify request = RequestClass.other)
    (hnet : env.fetch request.url = .rejected)
    (hfail : cachesMatch env st request.url = .rejected) :
    ∃ r : Response,
      (fetchListener env st request).respondWith = some (.fulfilled (some r)) ∧
      r.status = 503 ∧ r.statusText = "Service Unavailable" ∧ r.body = "Вы оффлайн" := by
  rw [fetchListener_eq_strategyOf env st request hget, hclass]
  refine ⟨newResponse "Вы оффлайн" 503 "Service Unavailable" [], ?_, rfl, rfl, rfl⟩
  simp [strategyOf, defaultBranch, hnet, hfail]

theorem default_offline_backend_failure_503_witness :
    otherRequest.method = "GET" ∧
    classify otherRequest = RequestClass.other ∧
    brokenEnv.fetch otherRequest.url = .rejected ∧
    cachesMatch brokenEnv [] otherRequest.url = .rejected ∧
    ∃ r : Response,
      (fetchListener brokenEnv [] otherRequest).respondWith = some (.fulfilled (some r)) ∧
      r.status = 503 ∧ r.statusText = "Service Unavailable" ∧ r.body = "Вы оффлайн" :=
  ⟨by decide, by decide, by decide, by decide,
    default_offline_backend_failure_503 brokenEnv [] otherRequest (by decide) (by decide)
      (by decide) (by decide)⟩

/-! ## Images -/

/-- C7: for every image-class GET request such that the lookup in the images cache yields no
entry and the network fetch fails, the listener responds with status 200, the single header
`Content-Type: image/svg+xml` and the fixed 100 by 100 "No Image" SVG as body; no write is
started and the entries of every cache are what they were. -/
theorem image_offline_miss_placeholder (env : Env) (st : CacheStorage) (request : Request)
    (hget : request.method = "GET")
    (hclass : classify request = RequestClass.image)
    (hmiss : cacheMatch env st CACHE_IMAGES request.url = .fulfilled none)
    (hnet : env.fetch request.url = .rejected) :
    (∃ r : Response,
      (fetchListener env st request).respondWith = some (.fulfilled (some r)) ∧
      r.status = 200 ∧ r.headers = [("Content-Type", "image/svg+xml")] ∧
      r.body = "<svg width=\"100\" height=\"100\" xmlns=\"http://www.w3.org/2000/svg\"><rect width=\"100\" height=\"100\" fill=\"#ddd\"/><text x=\"50\" y=\"50\" text-anchor=\"middle\" dy=\".3em\" fill=\"#999\" font-size=\"12\">No Image</text></svg>") ∧
    (fetchListener env st request).detached = [] ∧
    (∀ name, (fetchListener env st request).store.region name = st.region name) ∧
    runDetached env (fetchListener env st request).store
      (fetchListener env st request).detached = (fetchListener env st request).store := by
  obtain ⟨hup, hfind⟩ := cacheMatch_fulfilled env st _ _ _ hmiss
  rw [fetchListener_eq_strategyOf env st request hget, hclass]
  refine ⟨⟨newResponse NO_IMAGE_SVG 200 "" [("Content-Type", "image/svg+xml")], ?_, rfl,
    by decide, rfl⟩, ?_, ?_, ?_⟩
  · simp [strategyOf, imageBranch, cachesOpen, cacheMatch, hup, hfind, hnet, region_ensure]
  · simp [strategyOf, imageBranch, cachesOpen, cacheMatch, hup, hfind, hnet, region_ensure]
  · intro name
    simp [strategyOf, imageBranch, cachesOpen, cacheMatch, hup, hfind, hnet, region_ensure]
  · simp [strategyOf, imageBranch, cachesOpen, cacheMatch, hup, hfind, hnet, region_ensure,
      runDetached]

theorem image_offline_miss_placeholder_witness :
    imageRequest.method = "GET" ∧
    classify imageRequest = RequestClass.image ∧
    cacheMatch offlineEnv [] CACHE_IMAGES imageRequest.url = .fulfilled none ∧
    offlineEnv.fetch imageRequest.url = .rejected ∧
    (fetchListener offlineEnv [] imageRequest).detached = [] :=
  ⟨by decide, by decide, by decide, by decide,
    (image_offline_miss_placeholder offlineEnv [] imageRequest (by decide) (by decide)
      (by decide) (by decide)).2.1⟩

/-! ## Activation -/

theorem mem_names_remove (st : CacheStorage) (m n : String) :
    n ∈ (st.remove m).names ↔ n ∈ st.names ∧ n ≠ m := by
  simp only [CacheStorage.remove, CacheStorage.names, List.mem_map, List.mem_filter,
    Bool.not_eq_true', decide_eq_false_iff_not]
  constructor
  · rintro ⟨p, ⟨hp, hne⟩, rfl⟩
    exact ⟨⟨p, hp, rfl⟩, hne⟩
  · rintro ⟨⟨p, hp, rfl⟩, hne⟩
    exact ⟨p, ⟨hp, hne⟩, rfl⟩

theorem region_remove (st : CacheStorage) (m n : String) (h : n ≠ m) :
    (st.remove m).region n = st.region n := by
  induction st with
  | nil => rfl
  | cons p rest ih =>
    unfold CacheStorage.remove at ih ⊢
    by_cases hp : p.1 = m
    · have hpn : ¬ p.1 = n := fun e => h (e.symm.trans hp)
      rw [List.filter_cons_of_neg (by simp [hp]), ih]
      simp [CacheStorage.region, hpn]
    · rw [List.filter_cons_of_pos (by simp [hp])]
      simp only [CacheStorage.region, ih]

theorem mem_names_foldl_delete (env : Env) (l : List String) (st : CacheStorage) (n : String) :
    n ∈ (l.foldl (cachesDelete env) st).names ↔
      n ∈ st.names ∧ ¬ (n ∈ l ∧ env.cacheUp = true ∧ env.deleteOk n = true) := by
  induction l generalizing st with
  | nil => simp
  | cons m rest ih =>
    rw [List.foldl_cons, ih]
    unfold cachesDelete
    by_cases hd : (env.cacheUp && env.deleteOk m) = true
    · rw [if_pos hd, mem_names_remove]
      simp only [Bool.and_eq_true] at hd
      constructor
      · rintro ⟨⟨hn, hne⟩, hrest⟩
        refine ⟨hn, ?_⟩
        rintro ⟨hmem, hup, hok⟩
        rcases List.mem_cons.mp hmem with e | e
        · exact hne e
        · exact hrest ⟨e, hup, hok⟩
      · rintro ⟨hn, hnot⟩
        refine ⟨⟨hn, ?_⟩, ?_⟩
        · intro e
          subst e
          exact hnot ⟨List.mem_cons_self _ _, hd.1, hd.2⟩
        · rintro ⟨hmem, hup, hok⟩
          exact hnot ⟨List.mem_cons_of_mem _ hmem, hup, hok⟩
    · rw [if_neg hd]
      simp only [Bool.and_eq_true] at hd
      constructor
      · rintro ⟨hn, hrest⟩
        refine ⟨hn, ?_⟩
        rintro ⟨hmem, hup, hok⟩
        rcases List.mem_cons.mp hmem with e | e
        · subst e
          exact hd ⟨hup, hok⟩
        · exact hrest ⟨e, hup, hok⟩
      · rintro ⟨hn, hnot⟩
        refine ⟨hn, ?_⟩
        rintro ⟨hmem, hup, hok⟩
        exact hnot ⟨List.mem_cons_of_mem _ hmem, hup, hok⟩

theorem region_foldl_delete (env : Env) (l : List String) (st : CacheStorage) (n : String)
    (h : n ∉ l) : (l.foldl (cachesDelete env) st).region n = st.region n := by
  induction l generalizing st with
  | nil => rfl
  | cons m rest ih =>
    have hm : n ≠ m := fun e => h (e ▸ List.mem_cons_self _ _)
    have hrest : n ∉ rest := fun e => h (List.mem_cons_of_mem _ e)
    rw [List.foldl_cons, ih _ hrest]
    unfold cachesDelete
    split
    · exact region_remove st m n hm
    · rfl

theorem unrecognized_iff (n : String) :
    (n ≠ CACHE_VERSION ∧ n ≠ CACHE_ASSETS ∧ n ≠ CACHE_IMAGES) ↔ n ∉ recognizedNames := by
  simp [recognizedNames]

/-- C8: whatever names `caches.keys()` lists, the activate listener calls `caches.delete`
for exactly the listed names that are none of the three recognized names; a cache with a
recognized name is never removed and keeps its entries, also when some deletion fails; and
when every deletion succeeds the names that remain are exactly the listed names that are
recognized. -/
theorem activate_prunes_unrecognized (env : Env) (st : CacheStorage)
    (cacheNames : List String)
    (hkeys : cachesKeys env st = .fulfilled cacheNames) :
    (activateListener env st).deleteRequested =
      cacheNames.filter (fun n => decide (n ∉ recognizedNames)) ∧
    (∀ n ∈ recognizedNames,
      n ∉ (activateListener env st).deleteRequested ∧
      (n ∈ (activateListener env st).store.names ↔ n ∈ cacheNames) ∧
      (activateListener env st).store.region n = st.region n) ∧
    ((∀ n, env.deleteOk n = true) →
      ∀ n, n ∈ (activateListener env st).store.names ↔
        n ∈ cacheNames ∧ n ∈ recognizedNames) := by
  have hup : env.cacheUp = true ∧ st.names = cacheNames := by
    unfold cachesKeys at hkeys
    split at hkeys
    · rename_i h
      injection hkeys with hk
      exact ⟨h, hk⟩
    · cases hkeys
  obtain ⟨hup, hnames⟩ := hup
  have hreq : (activateListener env st).deleteRequested =
      cacheNames.filter (fun n => decide (n ∉ recognizedNames)) := by
    simp only [activateListener, hkeys]
    apply List.filter_congr
    intro n _
    exact decide_eq_decide.mpr (unrecognized_iff n)
  have hstore : (activateListener env st).store =
      (cacheNames.filter (fun n => decide (n ∉ recognizedNames))).foldl
        (cachesDelete env) st := by
    have h2 : cacheNames.filter (fun cacheName =>
          decide (cacheName ≠ CACHE_VERSION ∧ cacheName ≠ CACHE_ASSETS ∧
            cacheName ≠ CACHE_IMAGES)) =
        cacheNames.filter (fun n => decide (n ∉ recognizedNames)) := by
      apply List.filter_congr
      intro n _
      exact decide_eq_decide.mpr (unrecognized_iff n)
    simp only [activateListener, hkeys, h2]
  refine ⟨hreq, ?_, ?_⟩
  · intro n hn
    have hnot : n ∉ cacheNames.filter (fun n => decide (n ∉ recognizedNames)) := by
      simp [List.mem_filter, hn]
    refine ⟨by rw [hreq]; exact hnot, ?_, ?_⟩
    · rw [hstore, mem_names_foldl_delete, hnames]
      constructor
      · exact fun h => h.1
      · exact fun h => ⟨h, fun h2 => hnot h2.1⟩
    · rw [hstore]
      exact region_foldl_delete env _ st n hnot
  · intro hall n
    rw [hstore, mem_names_foldl_delete, hnames]
    simp only [List.mem_filter, decide_eq_true_eq, hup, hall n, and_true]
    constructor
    · rintro ⟨hn, h⟩
      refine ⟨hn, ?_⟩
      by_contra hc
      exact h ⟨hn, hc⟩
    · rintro ⟨hn, hr⟩
      exact ⟨hn, fun h => h.2 hr⟩

theorem activate_prunes_unrecognized_witness :
    cachesKeys offlineEnv
      [("techflow-v1.1", []), (CACHE_VERSION, []), ("techflow-assets-v0", []),
        (CACHE_IMAGES, [])] =
      .fulfilled ["techflow-v1.1", CACHE_VERSION, "techflow-assets-v0", CACHE_IMAGES] ∧
    (activateListener offlineEnv
      [("techflow-v1.1", []), (CACHE_VERSION, []), ("techflow-assets-v0", []),
        (CACHE_IMAGES, [])]).deleteRequested =
      ["techflow-v1.1", CACHE_VERSION, "techflow-assets-v0", CACHE_IMAGES].filter
        (fun n => decide (n ∉ recognizedNames)) :=
  ⟨by decide,
    (activate_prunes_unrecognized offlineEnv
      [("techflow-v1.1", []), (CACHE_VERSION, []), ("techflow-assets-v0", []),
        (CACHE_IMAGES, [])]
      ["techflow-v1.1", CACHE_VERSION, "techflow-assets-v0", CACHE_IMAGES] (by decide)).1⟩

/-! ## Installation -/

theorem addAllFetch_of_succeeds (env : Env) (urls : List String)
    (h : ∀ u ∈ urls, seedFetchSucceeds env u = true) :
    ∃ entries, addAllFetch env urls = some entries ∧
      (∀ e ∈ entries, env.fetch e.1 = .fulfilled e.2) ∧
      (∀ u ∈ urls, ∃ e ∈ entries, e.1 = resolveURL env.origin u) := by
  induction urls with
  | nil => exact ⟨[], rfl, by simp, by simp⟩
  | cons u rest ih =>
    obtain ⟨entries, hsome, hfetch, hkeys⟩ :=
      ih (fun v hv => h v (List.mem_cons_of_mem _ hv))
    have hu := h u (List.mem_cons_self _ _)
    unfold seedFetchSucceeds at hu
    cases hf : env.fetch (resolveURL env.origin u) with
    | rejected => simp [hf] at hu
    | fulfilled r =>
      simp only [hf] at hu
      refine ⟨(resolveURL env.origin u, r) :: entries, ?_, ?_, ?_⟩
      · simp [addAllFetch, hf, hu, hsome]
      · intro e he
        rcases List.mem_cons.mp he with e1 | e1
        · subst e1
          exact hf
        · exact hfetch e e1
      · intro v hv
        rcases List.mem_cons.mp hv with e1 | e1
        · subst e1
          exact ⟨_, List.mem_cons_self _ _, rfl⟩
        · obtain ⟨e, he, hek⟩ := hkeys v e1
          exact ⟨e, List.mem_cons_of_mem _ he, hek⟩

theorem find_foldl_putIn_other (n : String) (entries : List (String × Response))
    (st : CacheStorage) (url : String) (h : ∀ e ∈ entries, e.1 ≠ url) :
    Cache.find ((entries.foldl (fun s e => s.putIn n e.1 e.2) st).region n) url =
      Cache.find (st.region n) url := by
  induction entries generalizing st with
  | nil => rfl
  | cons e rest ih =>
    rw [List.foldl_cons, ih _ (fun x hx => h x (List.mem_cons_of_mem _ hx))]
    exact find_putIn_other st n e.1 url e.2 (fun c => h e (List.mem_cons_self _ _) c.symm)

theorem find_foldl_putIn_mem (n : String) (entries : List (String × Response))
    (st : CacheStorage)
    (hfun : ∀ e ∈ entries, ∀ x ∈ entries, e.1 = x.1 → e.2 = x.2) :
    ∀ e ∈ entries,
      Cache.find ((entries.foldl (fun s e => s.putIn n e.1 e.2) st).region n) e.1 =
        some e.2 := by
  induction entries generalizing st with
  | nil => simp
  | cons e0 rest ih =>
    intro e he
    rw [List.foldl_cons]
    have hfun2 : ∀ a ∈ rest, ∀ x ∈ rest, a.1 = x.1 → a.2 = x.2 :=
      fun a ha x hx => hfun a (List.mem_cons_of_mem _ ha) x (List.mem_cons_of_mem _ hx)
    by_cases hk : ∃ x ∈ rest, x.1 = e.1
    · obtain ⟨x, hx, hxk⟩ := hk
      have h1 := ih (st.putIn n e0.1 e0.2) hfun2 x hx
      rw [hxk] at h1
      rw [h1, hfun x (List.mem_cons_of_mem _ hx) e he hxk]
    · have hnot : ∀ x ∈ rest, x.1 ≠ e.1 := fun x hx c => hk ⟨x, hx, c⟩
      have he0 : e = e0 := by
        rcases List.mem_cons.mp he with c | c
        · exact c
        · exact absurd rfl (hnot e c)
      subst he0
      rw [find_foldl_putIn_other n rest _ _ hnot]
      exact find_putIn_same st n e.1 e.2

theorem has_foldl_putIn (n : String) (entries : List (String × Response))
    (st : CacheStorage) (h : st.has n = true) :
    (entries.foldl (fun s e => s.putIn n e.1 e.2) st).has n = true := by
  induction entries generalizing st with
  | nil => exact h
  | cons e rest ih =>
    rw [List.foldl_cons]
    exact ih _ (has_putIn_same st n e.1 e.2)

theorem has_ensure_other (st : CacheStorage) (n m : String) (h : m ≠ n) :
    (st.ensure n).has m = st.has m := by
  unfold CacheStorage.ensure
  split
  · rfl
  · have hnm : ¬ n = m := fun e => h e.symm
    simp [CacheStorage.has, hnm]

theorem has_putIn_other (st : CacheStorage) (n m url : String) (r : Response) (h : m ≠ n) :
    (st.putIn n url r).has m = st.has m := by
  have h1 : ∀ s : CacheStorage, s.has m = decide (m ∈ s.names) := by
    intro s
    cases hs : s.has m
    · have : ¬ m ∈ s.names := fun c => by
        rw [← has_iff_mem_names, hs] at c
        cases c
      simp [this]
    · simp [(has_iff_mem_names s m).mp hs]
  rw [h1, names_putIn, ← h1, has_ensure_other st n m h]

theorem foldl_putIn_other (n m : String) (entries : List (String × Response))
    (st : CacheStorage) (h : m ≠ n) :
    (entries.foldl (fun s e => s.putIn n e.1 e.2) st).region m = st.region m ∧
    (entries.foldl (fun s e => s.putIn n e.1 e.2) st).has m = st.has m := by
  induction entries generalizing st with
  | nil => exact ⟨rfl, rfl⟩
  | cons e rest ih =>
    rw [List.foldl_cons]
    obtain ⟨h1, h2⟩ := ih (st.putIn n e.1 e.2)
    exact ⟨h1.trans (region_putIn_other st n m e.1 e.2 h),
      h2.trans (has_putIn_other st n m e.1 e.2 h)⟩

/-- C9, as stated, fails.  After an install in which the cache backend works and every seed
fetch is answered with a plain 200 response, no cache named `CACHE_ASSETS` exists: the only
cache is `CACHE_VERSION`.  And when every seed fetch is answered with an ok status that
`cache.addAll` does not accept (206), the install stores nothing at all. -/
theorem install_does_not_fill_assets_cache :
    (onlineEnv.cacheUp = true ∧
      (∀ url ∈ PRECACHE_URLS,
        onlineEnv.fetch (resolveURL onlineEnv.origin url) = .fulfilled sampleResponse) ∧
      sampleResponse.status = 200 ∧
      (installListener onlineEnv []).errorLogged = false ∧
      (installListener onlineEnv []).store.has CACHE_ASSETS = false ∧
      (installListener onlineEnv []).store.names = [CACHE_VERSION] ∧
      (∀ url ∈ PRECACHE_URLS,
        Cache.find ((installListener onlineEnv []).store.region CACHE_ASSETS)
          (resolveURL onlineEnv.origin url) = none)) ∧
    (partialEnv.cacheUp = true ∧
      (∀ url ∈ PRECACHE_URLS,
        partialEnv.fetch (resolveURL partialEnv.origin url) = .fulfilled partialResponse) ∧
      partialResponse.ok = true ∧
      (installListener partialEnv []).errorLogged = true ∧
      (∀ name, ∀ url ∈ PRECACHE_URLS,
        Cache.find ((installListener partialEnv []).store.region name)
          (resolveURL partialEnv.origin url) = none)) := by
  refine ⟨by decide, by decide, by decide, by decide, by decide, ?_⟩
  intro name url _
  have h : (installListener partialEnv []).store = [(CACHE_VERSION, [])] := by decide
  rw [h]
  by_cases hn : CACHE_VERSION = name <;> simp [CacheStorage.region, hn, Cache.find]

/-- C9, amended: after an install in which the cache backend is reachable and every seed
fetch is answered with a response that `cache.addAll` accepts (http(s) URL, ok status other
than 206, no `Vary: *`), the version cache `CACHE_VERSION` exists and holds, for every URL
of the seed list (resolved against the worker origin), the response fetched for it; every
other cache, the assets cache included, exists or not as before and has the entries it
had. -/
theorem install_populates_version_cache (env : Env) (st : CacheStorage)
    (hup : env.cacheUp = true)
    (hseed : ∀ url ∈ PRECACHE_URLS, seedFetchSucceeds env url = true) :
    (installListener env st).store.has CACHE_VERSION = true ∧
    (installListener env st).errorLogged = false ∧
    (∀ url ∈ PRECACHE_URLS, ∃ r : Response,
      env.fetch (resolveURL env.origin url) = .fulfilled r ∧
      Cache.find ((installListener env st).store.region CACHE_VERSION)
        (resolveURL env.origin url) = some r) ∧
    (∀ name, name ≠ CACHE_VERSION →
      (installListener env st).store.region name = st.region name ∧
      (installListener env st).store.has name = st.has name) := by
  obtain ⟨entries, hsome, hfetch, hkeys⟩ := addAllFetch_of_succeeds env PRECACHE_URLS hseed
  have hfun : ∀ e ∈ entries, ∀ x ∈ entries, e.1 = x.1 → e.2 = x.2 := by
    intro e he x hx hk
    have h1 := hfetch e he
    have h2 := hfetch x hx
    rw [hk, h2] at h1
    injection h1 with h1
    exact h1.symm
  have hout : installListener env st =
      { store := entries.foldl (fun s e => s.putIn CACHE_VERSION e.1 e.2)
          (st.ensure CACHE_VERSION),
        errorLogged := false, skippedWaiting := true } := by
    simp [installListener, cachesOpen, hup, hsome]
  rw [hout]
  refine ⟨has_foldl_putIn _ _ _ (has_ensure st CACHE_VERSION), rfl, ?_, ?_⟩
  · intro url hurl
    obtain ⟨e, he, hek⟩ := hkeys url hurl
    refine ⟨e.2, ?_, ?_⟩
    · rw [← hek]
      exact hfetch e he
    · rw [← hek]
      exact find_foldl_putIn_mem CACHE_VERSION entries _ hfun e he
  · intro name hname
    obtain ⟨h1, h2⟩ := foldl_putIn_other CACHE_VERSION name entries
      (st.ensure CACHE_VERSION) hname
    exact ⟨h1.trans (region_ensure st CACHE_VERSION name),
      h2.trans (has_ensure_other st CACHE_VERSION name hname)⟩

theorem install_populates_version_cache_witness :
    onlineEnv.cacheUp = true ∧
    (∀ url ∈ PRECACHE_URLS, seedFetchSucceeds onlineEnv url = true) ∧
    (installListener onlineEnv [(CACHE_ASSETS, [(scriptRequest.url, notFoundResponse)])]
      ).store.has CACHE_VERSION = true ∧
    (installListener onlineEnv [(CACHE_ASSETS, [(scriptRequest.url, notFoundResponse)])]
      ).store.region CACHE_ASSETS = [(scriptRequest.url, notFoundResponse)] :=
  ⟨by decide, by decide,
    (install_populates_version_cache onlineEnv
      [(CACHE_ASSETS, [(scriptRequest.url, notFoundResponse)])] (by decide) (by decide)).1,
    ((install_populates_version_cache onlineEnv
      [(CACHE_ASSETS, [(scriptRequest.url, notFoundResponse)])] (by decide)
      (by decide)).2.2.2 CACHE_ASSETS (by decide)).1⟩

end SW
